import Mathlib

/-!
# Checksum input stream (`src/libotutil/ot-checksum-instream.c`)

A shallow embedding of `OtChecksumInstream`, the GIO filter stream that forwards
reads to a base stream and feeds every byte it hands out into a SHA-256 context
of one of three crypto backends (OpenSSL, GnuTLS, GLib), chosen at compile time.

* The base stream (`g_input_stream_read`) is a parameter: an arbitrary state
  machine over a state type `β`.
* The three `#if defined(HAVE_OPENSSL) / #elif defined(HAVE_GNUTLS) / #else`
  branches of the source are the three cases of `CryptoBackend`.
* The digest libraries are external; they are modelled by what their manuals
  promise, over a context that records the bytes hashed so far.
* Pointers that may be `NULL` are `Option`s; a C function that writes through an
  out-parameter returns the new contents.
-/

/-- A `guint8`, as a natural number below 256. -/
abbrev Byte := Nat

/-! ## SHA-256, the one digest algorithm the constructor accepts -/

namespace SHA256

/-- Round constants of SHA-256. -/
def K : List Nat :=
  [0x428a2f98, 0x71374491, 0xb5c0fbcf, 0xe9b5dba5, 0x3956c25b, 0x59f111f1, 0x923f82a4, 0xab1c5ed5]
  ++ [0xd807aa98, 0x12835b01, 0x243185be, 0x550c7dc3, 0x72be5d74, 0x80deb1fe, 0x9bdc06a7, 0xc19bf174]
  ++ [0xe49b69c1, 0xefbe4786, 0x0fc19dc6, 0x240ca1cc, 0x2de92c6f, 0x4a7484aa, 0x5cb0a9dc, 0x76f988da]
  ++ [0x983e5152, 0xa831c66d, 0xb00327c8, 0xbf597fc7, 0xc6e00bf3, 0xd5a79147, 0x06ca6351, 0x14292967]
  ++ [0x27b70a85, 0x2e1b2138, 0x4d2c6dfc, 0x53380d13, 0x650a7354, 0x766a0abb, 0x81c2c92e, 0x92722c85]
  ++ [0xa2bfe8a1, 0xa81a664b, 0xc24b8b70, 0xc76c51a3, 0xd192e819, 0xd6990624, 0xf40e3585, 0x106aa070]
  ++ [0x19a4c116, 0x1e376c08, 0x2748774c, 0x34b0bcb5, 0x391c0cb3, 0x4ed8aa4a, 0x5b9cca4f, 0x682e6ff3]
  ++ [0x748f82ee, 0x78a5636f, 0x84c87814, 0x8cc70208, 0x90befffa, 0xa4506ceb, 0xbef9a3f7, 0xc67178f2]

/-- Initial hash value of SHA-256. -/
def H0 : List Nat := [
  0x6a09e667, 0xbb67ae85, 0x3c6ef372, 0xa54ff53a, 0x510e527f, 0x9b05688c, 0x1f83d9ab, 0x5be0cd19]

/-- Truncation to a 32-bit word. -/
def w32 (x : Nat) : Nat := x % 4294967296

/-- Rotation of a 32-bit word to the right. -/
def rotr (n x : Nat) : Nat := w32 ((x >>> n) ||| (x <<< (32 - n)))

/-- The choice function of SHA-256. -/
def Ch (x y z : Nat) : Nat := (x &&& y) ^^^ ((4294967295 - x) &&& z)

/-- The majority function of SHA-256. -/
def Maj (x y z : Nat) : Nat := (x &&& y) ^^^ (x &&& z) ^^^ (y &&& z)

/-- The function written with a capital sigma and index 0 in FIPS 180-4. -/
def Sigma0 (x : Nat) : Nat := rotr 2 x ^^^ rotr 13 x ^^^ rotr 22 x

/-- The function written with a capital sigma and index 1 in FIPS 180-4. -/
def Sigma1 (x : Nat) : Nat := rotr 6 x ^^^ rotr 11 x ^^^ rotr 25 x

/-- The function written with a small sigma and index 0 in FIPS 180-4. -/
def sigma0 (x : Nat) : Nat := rotr 7 x ^^^ rotr 18 x ^^^ (x >>> 3)

/-- The function written with a small sigma and index 1 in FIPS 180-4. -/
def sigma1 (x : Nat) : Nat := rotr 17 x ^^^ rotr 19 x ^^^ (x >>> 10)

/-- Message padding: the byte 0x80, zero bytes up to 56 modulo 64, then the
length in bits as eight big-endian bytes. -/
def pad (msg : List Byte) : List Byte :=
  let l := msg.length
  msg ++ [128] ++ List.replicate ((119 - l % 64) % 64) 0
    ++ (List.range 8).map (fun i => (8 * l) >>> (8 * (7 - i)) % 256)

/-- The first `n` big-endian 32-bit words of a byte string. -/
def words : Nat → List Byte → List Nat
  | 0, _ => []
  | n + 1, bs =>
    ((((bs.getD 0 0 % 256) * 256 + bs.getD 1 0 % 256) * 256 + bs.getD 2 0 % 256) * 256
      + bs.getD 3 0 % 256) :: words n (bs.drop 4)

/-- Message schedule extended by `n` words; the most recent word comes first. -/
def schedule : Nat → List Nat → List Nat
  | 0, ws => ws
  | n + 1, ws =>
    schedule n
      (w32 (sigma1 (ws.getD 1 0) + ws.getD 6 0 + sigma0 (ws.getD 14 0) + ws.getD 15 0) :: ws)

/-- One round of the compression function on the eight working variables. -/
def round (s : List Nat) (kw : Nat × Nat) : List Nat :=
  match s with
  | [a, b, c, d, e, f, g, h] =>
    let t1 := h + Sigma1 e + Ch e f g + kw.1 + kw.2
    let t2 := Sigma0 a + Maj a b c
    [w32 (t1 + t2), a, b, c, w32 (d + t1), e, f, g]
  | _ => s

/-- The compression function: 64 rounds over one 64-byte block. -/
def compress (h : List Nat) (block : List Byte) : List Nat :=
  let w := (schedule 48 (words 16 block).reverse).reverse
  List.zipWith (fun x y => w32 (x + y)) h ((K.zip w).foldl round h)

/-- Compression of the first `n` blocks of a padded message. -/
def blocks : Nat → List Nat → List Byte → List Nat
  | 0, h, _ => h
  | n + 1, h, bs => blocks n (compress h (bs.take 64)) (bs.drop 64)

/-- The four big-endian bytes of a 32-bit word. -/
def word_bytes (x : Nat) : List Byte := [x >>> 24 % 256, x >>> 16 % 256, x >>> 8 % 256, x % 256]

end SHA256

/-- Modelled from the spec: the SHA-256 primitive of the digest backend (spec §6,
"digest backend"; FIPS 180-4), which lives in OpenSSL, GnuTLS or GLib and not
in this repository. It maps the whole message to its 32 digest bytes. -/
def sha256 (msg : List Byte) : List Byte :=
  let p := SHA256.pad msg
  (SHA256.blocks (p.length / 64) SHA256.H0 p).flatMap SHA256.word_bytes

/-! ## GLib and GIO types the source uses -/

/-- The `GChecksumType` enumeration of GLib. -/
inductive GChecksumType where
  | G_CHECKSUM_MD5
  | G_CHECKSUM_SHA1
  | G_CHECKSUM_SHA256
  | G_CHECKSUM_SHA512
  | G_CHECKSUM_SHA384
deriving DecidableEq, Repr

/-- A `GError`: domain, code and message. -/
structure GError where
  domain : Nat
  code : Int
  message : String
deriving DecidableEq, Repr

/-- A `GCancellable`, reduced to whether it has been cancelled. -/
structure GCancellable where
  cancelled : Bool
deriving DecidableEq, Repr

/-- What one call of a stream's read function hands back: the `gssize` return
value, the contents of the caller's buffer after the call, and `*error`. -/
structure ReadResult where
  res : Int
  buffer : List Byte
  error : Option GError
deriving DecidableEq, Repr

/-- A `GInputStream` over states `β`: its `read_fn`, taking the stream state, the
caller's buffer, `count` and the cancellable. -/
structure GInputStream (β : Type) where
  read_fn : β → List Byte → Nat → Option GCancellable → ReadResult × β

/-- The GIO entry point `g_input_stream_read`, which the wrapper calls on its base
stream; it is a parameter of the model. -/
def g_input_stream_read {β : Type} (S : GInputStream β) (base_stream : β)
    (buffer : List Byte) (count : Nat) (cancellable : Option GCancellable) : ReadResult × β :=
  S.read_fn base_stream buffer count cancellable

/-- A `GInputStream *` argument as the constructor sees it: `NULL`, an object that
is not an input stream, or an input stream. -/
inductive GObjectRef (β : Type) where
  | null
  | not_a_stream
  | input_stream (b : β)

/-- The type-check macro `G_IS_INPUT_STREAM`. -/
def G_IS_INPUT_STREAM {β : Type} : GObjectRef β → Bool
  | .input_stream _ => true
  | _ => false

/-! ## The digest backends -/

/-- The crypto library selected at compile time (`HAVE_OPENSSL`, `HAVE_GNUTLS`,
or neither, which means GLib's `GChecksum`). -/
inductive CryptoBackend where
  | openssl
  | gnutls
  | glib
deriving DecidableEq, Repr

/-- The digest context behind `priv->checksum` (`EVP_MD_CTX *`, `gnutls_hash_hd_t`
or `GChecksum *`): the bytes hashed since it was last initialised, and whether
the library has closed it (OpenSSL: finalised, GLib: digest string cached). The
algorithm is not carried: the constructor asserts SHA-256. -/
structure DigestCtx where
  data : List Byte
  closed : Bool
deriving DecidableEq, Repr

/-- The constant `EVP_MAX_MD_SIZE` of `openssl/evp.h`. -/
def EVP_MAX_MD_SIZE : Nat := 64

/-- The message digests `gchecksum_type_to_openssl` can name. -/
inductive EVP_MD where
  | EVP_sha256
deriving DecidableEq, Repr

/-- The output size of the digest, in bytes, as each library reports it for
SHA-256 (`EVP_MD_size`, `gnutls_hash_get_len`, `g_checksum_type_get_length`). -/
def SHA256_DIGEST_LENGTH : Nat := 32

/-- OpenSSL `EVP_MD_CTX_create` followed by `EVP_DigestInit_ex`: a fresh context. -/
def EVP_DigestInit_ex (_md : EVP_MD) : DigestCtx := { data := [], closed := false }

/-- OpenSSL `EVP_DigestUpdate`. The manual allows it until `EVP_DigestFinal_ex` has
been called; on a finalised context the call is outside the library's contract
and has no result in this model. -/
def EVP_DigestUpdate (c : DigestCtx) (d : List Byte) : Option DigestCtx :=
  if c.closed then none else some { c with data := c.data ++ d }

/-- OpenSSL `EVP_DigestFinal_ex`: the digest value, its size, and the finalised
context. A second call on the same context is outside the library's contract
and has no result in this model. -/
def EVP_DigestFinal_ex (c : DigestCtx) : Option (List Byte × Nat × DigestCtx) :=
  if c.closed then none
  else some (sha256 c.data, SHA256_DIGEST_LENGTH, { c with closed := true })

/-- The digest algorithms `gchecksum_type_to_gnutls` can name. -/
inductive gnutls_digest_algorithm_t where
  | GNUTLS_DIG_SHA256
deriving DecidableEq, Repr

/-- GnuTLS `gnutls_hash_init`: a fresh context. -/
def gnutls_hash_init (_a : gnutls_digest_algorithm_t) : DigestCtx :=
  { data := [], closed := false }

/-- GnuTLS `gnutls_hash`: hash more bytes into the context. -/
def gnutls_hash (c : DigestCtx) (d : List Byte) : DigestCtx :=
  { c with data := c.data ++ d }

/-- GnuTLS `gnutls_hash_output`: "output the current hash value and reset the
state of the hash". -/
def gnutls_hash_output (c : DigestCtx) : List Byte × DigestCtx :=
  (sha256 c.data, { data := [], closed := false })

/-- GnuTLS `gnutls_hash_get_len` for `GNUTLS_DIG_SHA256`. -/
def gnutls_hash_get_len : Nat := SHA256_DIGEST_LENGTH

/-- GLib `g_checksum_new` for `G_CHECKSUM_SHA256`: a fresh, open checksum. -/
def g_checksum_new : DigestCtx := { data := [], closed := false }

/-- GLib `g_checksum_type_get_length` for `G_CHECKSUM_SHA256`. -/
def g_checksum_type_get_length : Nat := SHA256_DIGEST_LENGTH

/-- GLib `g_checksum_update`: feeds bytes into an open checksum; on a closed one
it warns and returns without touching it. -/
def g_checksum_update (c : DigestCtx) (d : List Byte) : DigestCtx :=
  if c.closed then c else { c with data := c.data ++ d }

/-- Writing `src` at the start of a buffer, the rest of the buffer kept. -/
def write_buf (buffer src : List Byte) : List Byte :=
  src ++ buffer.drop src.length

/-- GLib `g_checksum_get_digest (checksum, buffer, digest_len)`. `digest_len` is
an in-out parameter that the caller sets to the size of the buffer: a `NULL`
there is dereferenced (no result), a value below the digest length makes the
call return without doing anything; otherwise the checksum is closed, the digest
written and `*digest_len` set to its length. -/
def g_checksum_get_digest (c : DigestCtx) (buffer : List Byte) (digest_len : Option Nat) :
    Option (List Byte × Option Nat × DigestCtx) :=
  match digest_len with
  | none => none
  | some n =>
    if n < g_checksum_type_get_length then some (buffer, some n, c)
    else some (write_buf buffer (sha256 c.data), some g_checksum_type_get_length,
      { c with closed := true })

/-- The table `hexchars` of lowercase hexadecimal digits. -/
def hexchars : List Char := "0123456789abcdef".toList

/-- The two lowercase hexadecimal digits of a byte, high nibble first. -/
def hex_byte (b : Byte) : List Char :=
  [hexchars.getD (b % 256 / 16) '0', hexchars.getD (b % 16) '0']

/-- Modelled from the spec: `ot_bin2hex (out_buf, inbuf, len)` of
`ot-checksum-utils`, which is not under `src/`: "lowercase hexadecimal encoding
(two hex characters per byte, no separators, no prefix)" of the first `len`
bytes of `inbuf`. -/
def ot_bin2hex (inbuf : List Byte) (len : Nat) : String :=
  String.mk ((inbuf.take len).flatMap hex_byte)

/-- GLib `g_checksum_get_string`: closes the checksum and returns the digest as a
lowercase hexadecimal string. -/
def g_checksum_get_string (c : DigestCtx) : String × DigestCtx :=
  (String.mk ((sha256 c.data).flatMap hex_byte), { c with closed := true })

/-! ## The stream object and its operations -/

/-- An `OtChecksumInstream` instance: the `base_stream` of the parent
`GFilterInputStream` and the private `checksum`. -/
structure OtChecksumInstream (β : Type) where
  base_stream : β
  checksum : DigestCtx
deriving DecidableEq, Repr

/-- The switch of `gchecksum_type_to_openssl`; `none` is `g_assert_not_reached`. -/
def gchecksum_type_to_openssl : GChecksumType → Option EVP_MD
  | .G_CHECKSUM_SHA256 => some .EVP_sha256
  | _ => none

/-- The switch of `gchecksum_type_to_gnutls`; `none` is `g_assert_not_reached`. -/
def gchecksum_type_to_gnutls : GChecksumType → Option gnutls_digest_algorithm_t
  | .G_CHECKSUM_SHA256 => some .GNUTLS_DIG_SHA256
  | _ => none

/-- How a call of `ot_checksum_instream_new` ends. -/
inductive NewResult (β : Type) where
  | stream (s : OtChecksumInstream β)
  | null
  | assertion_failed
deriving DecidableEq, Repr

/-- The constructor `ot_checksum_instream_new (base, checksum_type)`: first the
`g_return_val_if_fail` guard on `base`, then the assertion on `checksum_type`,
then the backend's initialisation. -/
def ot_checksum_instream_new {β : Type} (v : CryptoBackend) (base : GObjectRef β)
    (checksum_type : GChecksumType) : NewResult β :=
  match base with
  | .input_stream b =>
    if checksum_type = .G_CHECKSUM_SHA256 then
      match v with
      | .openssl =>
        match gchecksum_type_to_openssl checksum_type with
        | some md => .stream { base_stream := b, checksum := EVP_DigestInit_ex md }
        | none => .assertion_failed
      | .gnutls =>
        match gchecksum_type_to_gnutls checksum_type with
        | some a => .stream { base_stream := b, checksum := gnutls_hash_init a }
        | none => .assertion_failed
      | .glib => .stream { base_stream := b, checksum := g_checksum_new }
    else .assertion_failed
  | _ => .null

/-- The backend call of the read path: `g_assert (EVP_DigestUpdate (...))`,
`g_assert (!gnutls_hash (...))` or `g_checksum_update (...)`. -/
def digest_update (v : CryptoBackend) (c : DigestCtx) (d : List Byte) : Option DigestCtx :=
  match v with
  | .openssl => EVP_DigestUpdate c d
  | .gnutls => some (gnutls_hash c d)
  | .glib => some (g_checksum_update c d)

/-- The read function `ot_checksum_instream_read (stream, buffer, count,
cancellable, error)`: the result of the base stream and the stream afterwards;
`none` when the backend call has no result. -/
def ot_checksum_instream_read {β : Type} (v : CryptoBackend) (S : GInputStream β)
    (self : OtChecksumInstream β) (buffer : List Byte) (count : Nat)
    (cancellable : Option GCancellable) : Option (ReadResult × OtChecksumInstream β) :=
  let r := g_input_stream_read S self.base_stream buffer count cancellable
  if r.1.res > 0 then
    match digest_update v self.checksum (r.1.buffer.take r.1.res.toNat) with
    | some c => some (r.1, { base_stream := r.2, checksum := c })
    | none => none
  else some (r.1, { self with base_stream := r.2 })

/-- The accessor `ot_checksum_instream_get_digest (stream, buffer, digest_len)`:
the buffer and `*digest_len` after the call, and the stream afterwards. -/
def ot_checksum_instream_get_digest {β : Type} (v : CryptoBackend)
    (stream : OtChecksumInstream β) (buffer : List Byte) (digest_len : Option Nat) :
    Option (List Byte × Option Nat × OtChecksumInstream β) :=
  match v with
  | .openssl =>
    match EVP_DigestFinal_ex stream.checksum with
    | some (md, len, c) =>
      some (write_buf buffer md, digest_len.map (fun _ => len), { stream with checksum := c })
    | none => none
  | .gnutls =>
    let o := gnutls_hash_output stream.checksum
    some (write_buf buffer o.1, digest_len.map (fun _ => gnutls_hash_get_len),
      { stream with checksum := o.2 })
  | .glib =>
    match g_checksum_get_digest stream.checksum buffer digest_len with
    | some (buf, len, c) => some (buf, len, { stream with checksum := c })
    | none => none

/-- The accessor `ot_checksum_instream_dup_digest (stream, ret_len)`: the
allocated buffer it returns, `*ret_len` after the call, and the stream
afterwards. The GLib branch allocates with `g_malloc`, whose bytes are
indeterminate until the digest overwrites all of them; they are zeros here. -/
def ot_checksum_instream_dup_digest {β : Type} (v : CryptoBackend)
    (stream : OtChecksumInstream β) (ret_len : Option Nat) :
    Option (List Byte × Option Nat × OtChecksumInstream β) :=
  match v with
  | .openssl =>
    let ret := List.replicate EVP_MAX_MD_SIZE 0
    match EVP_DigestFinal_ex stream.checksum with
    | some (md, len, c) =>
      some (write_buf ret md, ret_len.map (fun _ => len), { stream with checksum := c })
    | none => none
  | .gnutls =>
    let len := gnutls_hash_get_len
    let ret := List.replicate len 0
    let o := gnutls_hash_output stream.checksum
    some (write_buf ret o.1, ret_len.map (fun _ => len), { stream with checksum := o.2 })
  | .glib =>
    let len := g_checksum_type_get_length
    let ret := List.replicate len 0
    match g_checksum_get_digest stream.checksum ret (some len) with
    | some (buf, len1, c) =>
      some (buf, ret_len.map (fun _ => len1.getD len), { stream with checksum := c })
    | none => none

/-- The accessor `ot_checksum_instream_get_string (stream)`: the string it
returns and the stream afterwards. The stack array `csum` of the OpenSSL branch
is indeterminate until the digest is written; only the bytes written are read,
and the array starts as zeros here. -/
def ot_checksum_instream_get_string {β : Type} (v : CryptoBackend)
    (stream : OtChecksumInstream β) : Option (String × OtChecksumInstream β) :=
  match v with
  | .openssl =>
    let csum := List.replicate EVP_MAX_MD_SIZE 0
    match EVP_DigestFinal_ex stream.checksum with
    | some (md, len, c) =>
      some (ot_bin2hex (write_buf csum md) len, { stream with checksum := c })
    | none => none
  | .gnutls =>
    match ot_checksum_instream_dup_digest .gnutls stream (some 0) with
    | some (csum, len, s) => some (ot_bin2hex csum (len.getD 0), s)
    | none => none
  | .glib =>
    let o := g_checksum_get_string stream.checksum
    some (o.1, { stream with checksum := o.2 })

/-! ## Callers: read sessions, scripted base streams, digest retrieval -/

/-- Whether the backend still takes updates on a context: always under GnuTLS
and GLib, under OpenSSL until the context is finalised. -/
def accepts_update (v : CryptoBackend) (c : DigestCtx) : Bool :=
  match v with
  | .openssl => !c.closed
  | _ => true

/-- The backend's context right after initialisation. -/
def digest_init (v : CryptoBackend) : DigestCtx :=
  match v with
  | .openssl => EVP_DigestInit_ex .EVP_sha256
  | .gnutls => gnutls_hash_init .GNUTLS_DIG_SHA256
  | .glib => g_checksum_new

/-- The backend's finalisation call on a context, returning the digest bytes. -/
def digest_final (v : CryptoBackend) (c : DigestCtx) : Option (List Byte) :=
  match v with
  | .openssl => (EVP_DigestFinal_ex c).map (fun o => o.1)
  | .gnutls => some (gnutls_hash_output c).1
  | .glib =>
    (g_checksum_get_digest c (List.replicate g_checksum_type_get_length 0)
      (some g_checksum_type_get_length)).map (fun o => o.1)

/-- Hashing a whole byte sequence with the backend directly: initialise, one
update call with all the bytes, finalise. -/
def hash_directly (v : CryptoBackend) (bytes : List Byte) : Option (List Byte) :=
  (digest_update v (digest_init v) bytes).bind (digest_final v)

/-- The arguments of one read call. -/
structure ReadRequest where
  buffer : List Byte
  count : Nat
  cancellable : Option GCancellable

/-- A sequence of read calls on a stream: the results in order and the stream
afterwards. -/
def read_session {β : Type} (v : CryptoBackend) (S : GInputStream β) :
    OtChecksumInstream β → List ReadRequest → Option (List ReadResult × OtChecksumInstream β)
  | self, [] => some ([], self)
  | self, q :: qs =>
    match ot_checksum_instream_read v S self q.buffer q.count q.cancellable with
    | none => none
    | some (r, self1) =>
      match read_session v S self1 qs with
      | none => none
      | some (rs, self2) => some (r :: rs, self2)

/-- The same sequence of read calls made on the base stream directly. -/
def base_session {β : Type} (S : GInputStream β) : β → List ReadRequest → List ReadResult × β
  | b, [] => ([], b)
  | b, q :: qs =>
    let r := g_input_stream_read S b q.buffer q.count q.cancellable
    let t := base_session S r.2 qs
    (r.1 :: t.1, t.2)

/-- The bytes `buffer[0..n]` a read result hands to its caller. -/
def ReadResult.bytes (r : ReadResult) : List Byte := r.buffer.take r.res.toNat

/-- The chunks of the reads that returned `n > 0`, in order. -/
def successful_chunks (rs : List ReadResult) : List (List Byte) :=
  (rs.filter (fun r => decide (r.res > 0))).map ReadResult.bytes

/-- One step of a scripted base stream: a chunk of bytes to hand out, or an I/O
error to report. -/
inductive ScriptStep where
  | chunk (bytes : List Byte)
  | fail (e : GError)
deriving DecidableEq, Repr

/-- A base stream that plays a script: each chunk is handed out (at most `count`
bytes per call, the rest on later calls), each failure is reported as -1 with its
error, and the end of the script is the end of the stream. -/
def script_stream : GInputStream (List ScriptStep) where
  read_fn := fun st buffer count _ =>
    match st with
    | [] => ({ res := 0, buffer := buffer, error := none }, [])
    | .fail e :: rest => ({ res := -1, buffer := buffer, error := some e }, rest)
    | .chunk c :: rest =>
      ({ res := ((c.take count).length : Int), buffer := write_buf buffer (c.take count),
         error := none },
        if (c.drop count).isEmpty then rest else .chunk (c.drop count) :: rest)

/-- A caller that reads until a call returns 0 or -1, with a limit on the number
of calls: the last result and the stream afterwards, `none` when the limit is
reached first. -/
def read_to_end {β : Type} (v : CryptoBackend) (S : GInputStream β) (count : Nat) :
    Nat → OtChecksumInstream β → List Byte → Option (ReadResult × OtChecksumInstream β)
  | 0, _, _ => none
  | fuel + 1, self, buffer =>
    match ot_checksum_instream_read v S self buffer count none with
    | none => none
    | some (r, self1) =>
      if r.res > 0 then read_to_end v S count fuel self1 r.buffer else some (r, self1)

/-- The three digest accessors. -/
inductive Retrieval where
  | get_digest
  | dup_digest
  | get_string
deriving DecidableEq, Repr

/-- A digest as an accessor hands it out: raw bytes or hexadecimal text. -/
inductive Digest where
  | raw (bytes : List Byte)
  | text (s : String)
deriving DecidableEq, Repr

/-- One digest retrieval through the given accessor, as a caller makes it:
`get_digest` with a buffer of the digest length and `digest_len` set to it,
`dup_digest` with `ret_len` supplied. -/
def retrieve {β : Type} (v : CryptoBackend) (op : Retrieval) (stream : OtChecksumInstream β) :
    Option (Digest × OtChecksumInstream β) :=
  match op with
  | .get_digest =>
    (ot_checksum_instream_get_digest v stream (List.replicate SHA256_DIGEST_LENGTH 0)
      (some SHA256_DIGEST_LENGTH)).map (fun o => (.raw (o.1.take (o.2.1.getD 0)), o.2.2))
  | .dup_digest =>
    (ot_checksum_instream_dup_digest v stream (some 0)).map
      (fun o => (.raw (o.1.take (o.2.1.getD 0)), o.2.2))
  | .get_string =>
    (ot_checksum_instream_get_string v stream).map (fun o => (.text o.1, o.2))

/-- The context a digest retrieval leaves behind: reset under GnuTLS, closed
under OpenSSL and GLib. -/
def digest_close (v : CryptoBackend) (c : DigestCtx) : DigestCtx :=
  match v with
  | .gnutls => { data := [], closed := false }
  | _ => { c with closed := true }

/-- The size of the buffer `ot_checksum_instream_dup_digest` allocates. -/
def dup_digest_alloc (v : CryptoBackend) : Nat :=
  match v with
  | .openssl => EVP_MAX_MD_SIZE
  | _ => SHA256_DIGEST_LENGTH

/-- The form in which an accessor hands out digest bytes: `get_string` as
lowercase hexadecimal text, the other two raw. -/
def Retrieval.form (op : Retrieval) (bytes : List Byte) : Digest :=
  match op with
  | .get_string => .text (String.mk (bytes.flatMap hex_byte))
  | _ => .raw bytes

/-! ## Concrete inputs -/

/-- An I/O error as a base stream may report it. -/
def io_error : GError := { domain := 1, code := 0, message := "read failed" }

/-- A script with a failed read between two chunks. -/
def flaky_script : List ScriptStep := [.chunk [97, 98], .fail io_error, .chunk [99]]

/-- The same bytes in the same chunks without the failed read. -/
def clean_script : List ScriptStep := [.chunk [97, 98], .chunk [99]]

/-- A read request with a four-byte buffer. -/
def four_bytes : ReadRequest := { buffer := [0, 0, 0, 0], count := 4, cancellable := none }

/-- The SHA-256 digest of the empty input, e3b0c442...7852b855. -/
def digest_of_empty : List Byte :=
  [0xe3, 0xb0, 0xc4, 0x42, 0x98, 0xfc, 0x1c, 0x14, 0x9a, 0xfb, 0xf4, 0xc8, 0x99, 0x6f, 0xb9, 0x24]
  ++ [0x27, 0xae, 0x41, 0xe4, 0x64, 0x9b, 0x93, 0x4c, 0xa4, 0x95, 0x99, 0x1b, 0x78, 0x52, 0xb8, 0x55]

theorem SHA256.round_length (s : List Nat) (kw : Nat × Nat) :
    (SHA256.round s kw).length = s.length := by
  unfold SHA256.round
  split <;> simp

theorem SHA256.foldl_round_length (l : List (Nat × Nat)) :
    ∀ s : List Nat, (l.foldl SHA256.round s).length = s.length := by
  induction l with
  | nil => intro s; rfl
  | cons x xs ih => intro s; rw [List.foldl_cons, ih, SHA256.round_length]

theorem SHA256.compress_length (h : List Nat) (block : List Byte) :
    (SHA256.compress h block).length = h.length := by
  simp [SHA256.compress, SHA256.foldl_round_length]

theorem SHA256.blocks_length (n : Nat) :
    ∀ (h : List Nat) (bs : List Byte), (SHA256.blocks n h bs).length = h.length := by
  induction n with
  | zero => intro h bs; rfl
  | succ n ih => intro h bs; rw [SHA256.blocks, ih, SHA256.compress_length]

theorem SHA256.flatMap_word_bytes_length (l : List Nat) :
    (l.flatMap SHA256.word_bytes).length = 4 * l.length := by
  induction l with
  | nil => rfl
  | cons x xs ih => simp [List.flatMap_cons, SHA256.word_bytes, ih]; omega

theorem sha256_length (msg : List Byte) : (sha256 msg).length = 32 := by
  unfold sha256
  simp only [SHA256.flatMap_word_bytes_length, SHA256.blocks_length]
  rfl


theorem write_buf_take (buffer src : List Byte) : (write_buf buffer src).take src.length = src := by
  simp [write_buf]

theorem digest_update_open (v : CryptoBackend) (c : DigestCtx) (d : List Byte)
    (h : c.closed = false) :
    digest_update v c d = some { data := c.data ++ d, closed := false } := by
  cases c with
  | mk data closed =>
    cases h
    cases v <;> simp [digest_update, EVP_DigestUpdate, gnutls_hash, g_checksum_update]

theorem read_nonpos {β : Type} (v : CryptoBackend) (S : GInputStream β)
    (self : OtChecksumInstream β) (buffer : List Byte) (count : Nat)
    (cancellable : Option GCancellable)
    (h : ¬ (g_input_stream_read S self.base_stream buffer count cancellable).1.res > 0) :
    ot_checksum_instream_read v S self buffer count cancellable
      = some ((g_input_stream_read S self.base_stream buffer count cancellable).1,
          { base_stream := (g_input_stream_read S self.base_stream buffer count cancellable).2,
            checksum := self.checksum }) := by
  unfold ot_checksum_instream_read
  simp only [if_neg h]

theorem read_pos {β : Type} (v : CryptoBackend) (S : GInputStream β)
    (self : OtChecksumInstream β) (buffer : List Byte) (count : Nat)
    (cancellable : Option GCancellable)
    (h : (g_input_stream_read S self.base_stream buffer count cancellable).1.res > 0) :
    ot_checksum_instream_read v S self buffer count cancellable
      = (digest_update v self.checksum
          (g_input_stream_read S self.base_stream buffer count cancellable).1.bytes).map
          (fun c => ((g_input_stream_read S self.base_stream buffer count cancellable).1,
            { base_stream := (g_input_stream_read S self.base_stream buffer count cancellable).2,
              checksum := c })) := by
  unfold ot_checksum_instream_read
  simp only [if_pos h, ReadResult.bytes]
  cases digest_update v self.checksum
    (List.take (g_input_stream_read S self.base_stream buffer count cancellable).1.res.toNat
      (g_input_stream_read S self.base_stream buffer count cancellable).1.buffer) <;> rfl

theorem successful_chunks_cons (r : ReadResult) (rs : List ReadResult) :
    successful_chunks (r :: rs)
      = if r.res > 0 then r.bytes :: successful_chunks rs else successful_chunks rs := by
  unfold successful_chunks
  by_cases h : r.res > 0 <;> simp [List.filter_cons, h]

theorem read_session_open {β : Type} (v : CryptoBackend) (S : GInputStream β)
    (qs : List ReadRequest) : ∀ (b : β) (data : List Byte),
    read_session v S { base_stream := b, checksum := { data := data, closed := false } } qs
      = some ((base_session S b qs).1,
          { base_stream := (base_session S b qs).2,
            checksum := { data := data ++ (successful_chunks (base_session S b qs).1).flatten,
                          closed := false } }) := by
  induction qs with
  | nil => intro b data; simp [read_session, base_session, successful_chunks]
  | cons q qs ih =>
    intro b data
    by_cases h : (g_input_stream_read S b q.buffer q.count q.cancellable).1.res > 0
    · simp only [read_session, base_session]
      rw [read_pos v S _ _ _ _ h, digest_update_open v _ _ rfl]
      simp only [Option.map_some', ih, successful_chunks_cons, if_pos h, List.flatten_cons,
        List.append_assoc]
    · simp only [read_session, base_session]
      rw [read_nonpos v S _ _ _ _ h]
      simp only [ih, successful_chunks_cons, if_neg h]

theorem read_open {β : Type} (v : CryptoBackend) (S : GInputStream β) (b : β)
    (data buffer : List Byte) (count : Nat) (cancellable : Option GCancellable) :
    ot_checksum_instream_read v S
        { base_stream := b, checksum := { data := data, closed := false } } buffer count
        cancellable
      = some ((g_input_stream_read S b buffer count cancellable).1,
          { base_stream := (g_input_stream_read S b buffer count cancellable).2,
            checksum :=
              { data := if (g_input_stream_read S b buffer count cancellable).1.res > 0
                  then data ++ (g_input_stream_read S b buffer count cancellable).1.bytes
                  else data,
                closed := false } }) := by
  by_cases hp : (g_input_stream_read S b buffer count cancellable).1.res > 0
  · rw [read_pos v S _ _ _ _ hp, digest_update_open v _ _ rfl, if_pos hp]; rfl
  · rw [read_nonpos v S _ _ _ _ hp, if_neg hp]

theorem take_write_buf (buffer : List Byte) (msg : List Byte) :
    (write_buf buffer (sha256 msg)).take 32 = sha256 msg := by
  unfold write_buf
  exact List.take_left' (sha256_length msg)

theorem write_buf_exact (buffer : List Byte) (msg : List Byte) (h : buffer.length ≤ 32) :
    write_buf buffer (sha256 msg) = sha256 msg := by
  unfold write_buf
  rw [sha256_length, List.drop_of_length_le h, List.append_nil]

theorem ot_bin2hex_sha256 (msg : List Byte) :
    ot_bin2hex (sha256 msg) 32 = String.mk ((sha256 msg).flatMap hex_byte) := by
  unfold ot_bin2hex
  rw [List.take_of_length_le (le_of_eq (sha256_length msg))]

theorem get_digest_eq {β : Type} (v : CryptoBackend) (s : OtChecksumInstream β)
    (buffer : List Byte) (n : Nat) (h : accepts_update v s.checksum = true) (hn : 32 ≤ n) :
    ot_checksum_instream_get_digest v s buffer (some n)
      = some (write_buf buffer (sha256 s.checksum.data), some 32,
          { s with checksum := digest_close v s.checksum }) := by
  cases v
  · simp [accepts_update] at h
    simp [ot_checksum_instream_get_digest, EVP_DigestFinal_ex, h, digest_close,
      SHA256_DIGEST_LENGTH]
  · simp [ot_checksum_instream_get_digest, gnutls_hash_output, digest_close,
      gnutls_hash_get_len, SHA256_DIGEST_LENGTH]
  · have : ¬ n < 32 := by omega
    simp [ot_checksum_instream_get_digest, g_checksum_get_digest, digest_close,
      g_checksum_type_get_length, SHA256_DIGEST_LENGTH, this]

theorem dup_digest_eq {β : Type} (v : CryptoBackend) (s : OtChecksumInstream β)
    (ret_len : Option Nat) (h : accepts_update v s.checksum = true) :
    ot_checksum_instream_dup_digest v s ret_len
      = some (write_buf (List.replicate (dup_digest_alloc v) 0) (sha256 s.checksum.data),
          ret_len.map (fun _ => 32), { s with checksum := digest_close v s.checksum }) := by
  cases v
  · simp [accepts_update] at h
    simp [ot_checksum_instream_dup_digest, EVP_DigestFinal_ex, h, digest_close,
      SHA256_DIGEST_LENGTH, dup_digest_alloc]
  · simp [ot_checksum_instream_dup_digest, gnutls_hash_output, digest_close,
      gnutls_hash_get_len, SHA256_DIGEST_LENGTH, dup_digest_alloc]
  · cases ret_len <;>
    simp [ot_checksum_instream_dup_digest, g_checksum_get_digest, digest_close,
      g_checksum_type_get_length, SHA256_DIGEST_LENGTH, dup_digest_alloc]

theorem get_string_eq {β : Type} (v : CryptoBackend) (s : OtChecksumInstream β)
    (h : accepts_update v s.checksum = true) :
    ot_checksum_instream_get_string v s
      = some (String.mk ((sha256 s.checksum.data).flatMap hex_byte),
          { s with checksum := digest_close v s.checksum }) := by
  cases v
  · simp [accepts_update] at h
    simp [ot_checksum_instream_get_string, EVP_DigestFinal_ex, h, digest_close,
      SHA256_DIGEST_LENGTH, ot_bin2hex, take_write_buf]
  · simp [ot_checksum_instream_get_string, ot_checksum_instream_dup_digest, gnutls_hash_output,
      digest_close, gnutls_hash_get_len, SHA256_DIGEST_LENGTH, ot_bin2hex, take_write_buf]
  · simp [ot_checksum_instream_get_string, g_checksum_get_string, digest_close]

theorem retrievals_closed_openssl {β : Type} (s : OtChecksumInstream β)
    (h : s.checksum.closed = true) (buffer : List Byte) (n ret_len : Option Nat) :
    ot_checksum_instream_get_digest .openssl s buffer n = none ∧
    ot_checksum_instream_dup_digest .openssl s ret_len = none ∧
    ot_checksum_instream_get_string .openssl s = none := by
  simp [ot_checksum_instream_get_digest, ot_checksum_instream_dup_digest,
    ot_checksum_instream_get_string, EVP_DigestFinal_ex, h]

theorem retrieve_eq {β : Type} (v : CryptoBackend) (op : Retrieval) (s : OtChecksumInstream β)
    (h : accepts_update v s.checksum = true) :
    retrieve v op s
      = some (op.form (sha256 s.checksum.data),
          { s with checksum := digest_close v s.checksum }) := by
  cases op
  · simp [retrieve, get_digest_eq v s _ 32 h (le_refl 32), SHA256_DIGEST_LENGTH,
      Retrieval.form, take_write_buf]
  · simp [retrieve, dup_digest_eq v s _ h, Retrieval.form, take_write_buf]
  · simp [retrieve, get_string_eq v s h, Retrieval.form]

theorem retrieve_open {β : Type} (v : CryptoBackend) (op : Retrieval) (b : β)
    (data : List Byte) :
    retrieve v op { base_stream := b, checksum := { data := data, closed := false } }
      = some (op.form (sha256 data),
          { base_stream := b, checksum := digest_close v { data := data, closed := false } }) := by
  have h : accepts_update v { data := data, closed := false } = true := by cases v <;> rfl
  exact retrieve_eq v op _ h

theorem accepts_update_open (v : CryptoBackend) (c : DigestCtx) (h : c.closed = false) :
    accepts_update v c = true := by
  cases v <;> simp [accepts_update, h]

theorem hash_directly_eq (v : CryptoBackend) (bytes : List Byte) :
    hash_directly v bytes = some (sha256 bytes) := by
  cases v
  · simp [hash_directly, digest_init, digest_update, digest_final, EVP_DigestInit_ex,
      EVP_DigestUpdate, EVP_DigestFinal_ex]
  · simp [hash_directly, digest_init, digest_update, digest_final, gnutls_hash_init,
      gnutls_hash, gnutls_hash_output]
  · simp [hash_directly, digest_init, digest_update, digest_final, g_checksum_new,
      g_checksum_update, g_checksum_get_digest, g_checksum_type_get_length,
      SHA256_DIGEST_LENGTH, write_buf_exact]

theorem script_read_nil (buffer : List Byte) (count : Nat) (cancellable : Option GCancellable) :
    g_input_stream_read script_stream [] buffer count cancellable
      = ({ res := 0, buffer := buffer, error := none }, []) := rfl

theorem script_read_chunk (c : List Byte) (rest : List ScriptStep) (buffer : List Byte)
    (count : Nat) (cancellable : Option GCancellable) :
    g_input_stream_read script_stream (.chunk c :: rest) buffer count cancellable
      = ({ res := ((c.take count).length : Int), buffer := write_buf buffer (c.take count),
           error := none },
         if (c.drop count).isEmpty then rest else .chunk (c.drop count) :: rest) := rfl

theorem read_to_end_script (v : CryptoBackend) (count : Nat) (hc : 0 < count) (fuel : Nat) :
    ∀ (cs : List (List Byte)) (data buffer : List Byte),
      (∀ c ∈ cs, c ≠ []) → cs.flatten.length + cs.length < fuel →
      ∃ r, read_to_end v script_stream count fuel
            { base_stream := cs.map ScriptStep.chunk,
              checksum := { data := data, closed := false } } buffer
          = some (r, { base_stream := [],
                       checksum := { data := data ++ cs.flatten, closed := false } }) ∧
        r.res = 0 ∧ r.error = none := by
  induction fuel with
  | zero => intro cs data buffer _ hf; omega
  | succ fuel ih =>
    intro cs data buffer hne hf
    cases cs with
    | nil =>
      refine ⟨{ res := 0, buffer := buffer, error := none }, ?_, rfl, rfl⟩
      simp [read_to_end, read_open, script_read_nil]
    | cons c rest =>
      have hcne : c ≠ [] := hne c (List.mem_cons_self c rest)
      have hlen : 0 < c.length := List.length_pos.mpr hcne
      have htake : 0 < (c.take count).length := by
        rw [List.length_take]; omega
      have hpos : ((c.take count).length : Int) > 0 := by exact_mod_cast htake
      have hrest : ∀ x ∈ rest, x ≠ [] := fun x hx => hne x (List.mem_cons_of_mem c hx)
      have hfl : (c :: rest).flatten.length = c.length + rest.flatten.length := by
        simp [List.flatten_cons]
      simp only [List.length_cons] at hf
      rw [hfl] at hf
      simp only [read_to_end, List.map_cons, read_open, script_read_chunk, if_pos hpos,
        ReadResult.bytes, Int.toNat_ofNat, write_buf_take]
      by_cases hd : (c.drop count).isEmpty = true
      · have hdnil : c.drop count = [] := List.isEmpty_iff.mp hd
        have htc : c.take count = c := by
          have := List.take_append_drop count c
          rw [hdnil, List.append_nil] at this
          exact this
        simp only [hd, if_true]
        obtain ⟨r, hr, h0, he⟩ := ih rest (data ++ c.take count)
          (write_buf buffer (c.take count)) hrest (by omega)
        refine ⟨r, ?_, h0, he⟩
        rw [hr, htc]
        simp [List.flatten_cons, List.append_assoc]
      · have hdne : c.drop count ≠ [] := fun h => hd (List.isEmpty_iff.mpr h)
        simp only [hd]
        have hne2 : ∀ x ∈ (c.drop count :: rest), x ≠ [] := by
          intro x hx
          rcases List.mem_cons.mp hx with h | h
          · rw [h]; exact hdne
          · exact hrest x h
        have hm : (c.drop count :: rest).flatten.length + (c.drop count :: rest).length
            < fuel := by
          simp only [List.flatten_cons, List.length_append, List.length_drop, List.length_cons]
          omega
        obtain ⟨r, hr, h0, he⟩ := ih (c.drop count :: rest) (data ++ c.take count)
          (write_buf buffer (c.take count)) hne2 hm
        refine ⟨r, ?_, h0, he⟩
        simp only [List.map_cons] at hr
        simp only [Bool.false_eq_true, if_false]
        rw [hr]
        simp only [List.flatten_cons, List.append_assoc]
        rw [← List.append_assoc (c.take count), List.take_append_drop]

theorem sha256_empty_hex :
    String.mk ((sha256 []).flatMap hex_byte)
      = "e3b0c44298fc1c149afbf4c8996fb92427ae41e4649b934ca495991b7852b855" := by
  decide

theorem sha256_abc :
    String.mk ((sha256 [97, 98, 99]).flatMap hex_byte)
      = "ba7816bf8f01cfea414140de5dae2223b00361a396177a9cb410ff61f20015ad" := by
  decide

theorem successful_chunks_of_zero (rs : List ReadResult) (h : ∀ r ∈ rs, r.res = 0) :
    successful_chunks rs = [] := by
  induction rs with
  | nil => rfl
  | cons r rs ih =>
    have h0 : r.res = 0 := h r (List.mem_cons_self r rs)
    have hn : ¬ r.res > 0 := by omega
    rw [successful_chunks_cons, if_neg hn]
    exact ih (fun x hx => h x (List.mem_cons_of_mem r hx))

theorem hexchars_getD_mem (i : Nat) : hexchars.getD i '0' ∈ hexchars := by
  by_cases h : i < 16
  · interval_cases i <;> decide
  · have hl : hexchars.length ≤ i := by
      have : hexchars.length = 16 := rfl
      omega
    rw [List.getD_eq_default _ _ hl]
    decide

theorem hex_byte_mem (b : Byte) : ∀ c ∈ hex_byte b, c ∈ hexchars := by
  intro c hc
  simp only [hex_byte, List.mem_cons, List.mem_singleton, List.not_mem_nil, or_false] at hc
  rcases hc with h | h <;> rw [h] <;> exact hexchars_getD_mem _

theorem flatMap_hex_byte_mem (l : List Byte) : ∀ c ∈ l.flatMap hex_byte, c ∈ hexchars := by
  intro c hc
  obtain ⟨b, _, hb⟩ := List.mem_flatMap.mp hc
  exact hex_byte_mem b c hb

theorem flatMap_hex_byte_length (l : List Byte) : (l.flatMap hex_byte).length = 2 * l.length := by
  induction l with
  | nil => rfl
  | cons x xs ih => simp [List.flatMap_cons, hex_byte, ih]; omega

theorem closed_of_not_accepts (v : CryptoBackend) (c : DigestCtx)
    (h : ¬ accepts_update v c = true) : v = .openssl ∧ c.closed = true := by
  cases v <;> simp [accepts_update] at h
  exact ⟨rfl, h⟩

theorem digest_close_glib_accepts (c : DigestCtx) :
    accepts_update .glib (digest_close .glib c) = true := rfl

/-- C3: for every base stream and every sequence of read calls on a freshly
constructed stream, the calls return what the base stream returns, and the bytes
fed into the digest context are, in order, the concatenation of `buffer[0..n]`
over exactly the calls that returned `n > 0`; one more read call, whatever its
arguments, makes one backend update with exactly its `n` bytes when it returns
`n > 0` and leaves the context alone otherwise. -/
theorem read_session_feeds_returned_bytes {β : Type} (v : CryptoBackend) (S : GInputStream β)
    (b : β) (qs : List ReadRequest) :
    ∃ s0 s, ot_checksum_instream_new v (.input_stream b) .G_CHECKSUM_SHA256 = .stream s0 ∧
      read_session v S s0 qs = some ((base_session S b qs).1, s) ∧
      s.checksum.data = (successful_chunks (base_session S b qs).1).flatten ∧
      s.checksum.closed = false ∧
      ∀ q : ReadRequest, ∃ r s1,
        ot_checksum_instream_read v S s q.buffer q.count q.cancellable = some (r, s1) ∧
        (0 < r.res →
          digest_update v s.checksum r.bytes = some s1.checksum ∧
          s1.checksum.data = s.checksum.data ++ r.bytes) ∧
        (r.res ≤ 0 → s1.checksum = s.checksum) := by
  refine ⟨{ base_stream := b, checksum := { data := [], closed := false } },
    { base_stream := (base_session S b qs).2,
      checksum := { data := (successful_chunks (base_session S b qs).1).flatten,
                    closed := false } }, ?_, ?_, rfl, rfl, ?_⟩
  · cases v <;> rfl
  · simpa using read_session_open v S qs b []
  · intro q
    refine ⟨_, _, read_open v S _ _ q.buffer q.count q.cancellable, ?_, ?_⟩
    · intro hpos
      have hp : (g_input_stream_read S (base_session S b qs).2 q.buffer q.count
          q.cancellable).1.res > 0 := hpos
      simp only [if_pos hp]
      exact ⟨digest_update_open v _ _ rfl, trivial⟩
    · intro hle
      have hp : ¬ (g_input_stream_read S (base_session S b qs).2 q.buffer q.count
          q.cancellable).1.res > 0 := not_lt.mpr hle
      simp only [if_neg hp]

/-! ## Failed and empty reads -/

/-- C4: a read call that returns -1 or 0 leaves the digest context as it was; and
two read sessions on freshly constructed streams, over any two base streams,
whose calls that returned `n > 0` handed out the same chunks in the same order
(so one may be the other with its failed and end-of-stream reads removed) end in
the same digest context and give the same digest through every accessor. -/
theorem failed_reads_do_not_count {β γ : Type} (v : CryptoBackend) :
    (∀ (S : GInputStream β) (self : OtChecksumInstream β) (buffer : List Byte) (count : Nat)
        (cancellable : Option GCancellable),
        (g_input_stream_read S self.base_stream buffer count cancellable).1.res ≤ 0 →
        ∃ s1, ot_checksum_instream_read v S self buffer count cancellable
            = some ((g_input_stream_read S self.base_stream buffer count cancellable).1, s1) ∧
          s1.checksum = self.checksum) ∧
    (∀ (S : GInputStream β) (T : GInputStream γ) (b : β) (c : γ) (qs ps : List ReadRequest),
        successful_chunks (base_session S b qs).1 = successful_chunks (base_session T c ps).1 →
        ∃ s t, read_session v S { base_stream := b, checksum := digest_init v } qs
            = some ((base_session S b qs).1, s) ∧
          read_session v T { base_stream := c, checksum := digest_init v } ps
            = some ((base_session T c ps).1, t) ∧
          s.checksum = t.checksum ∧
          ∀ op : Retrieval, ∃ d s1 t1,
            retrieve v op s = some (d, s1) ∧ retrieve v op t = some (d, t1)) := by
  constructor
  · intro S self buffer count cancellable hle
    exact ⟨_, read_nonpos v S self buffer count cancellable (not_lt.mpr hle), rfl⟩
  · intro S T b c qs ps hch
    have hinit : digest_init v = { data := [], closed := false } := by cases v <;> rfl
    have h1 := read_session_open v S qs b []
    have h2 := read_session_open v T ps c []
    rw [hinit]
    refine ⟨_, _, h1, h2, ?_, ?_⟩
    · simp only [hch]
    · intro op
      exact ⟨_, _, _, retrieve_open v op _ _, by rw [hch]; exact retrieve_open v op _ _⟩

/-- Witness for C4: a script with a failed read between its two chunks and the
same script without the failed read. -/
theorem failed_reads_do_not_count_witness :
    successful_chunks (base_session script_stream flaky_script
        [four_bytes, four_bytes, four_bytes, four_bytes]).1
      = successful_chunks (base_session script_stream clean_script
        [four_bytes, four_bytes, four_bytes]).1 ∧
    ∃ s t, read_session .gnutls script_stream
          { base_stream := flaky_script, checksum := digest_init .gnutls }
          [four_bytes, four_bytes, four_bytes, four_bytes]
        = some ((base_session script_stream flaky_script
            [four_bytes, four_bytes, four_bytes, four_bytes]).1, s) ∧
      read_session .gnutls script_stream
          { base_stream := clean_script, checksum := digest_init .gnutls }
          [four_bytes, four_bytes, four_bytes]
        = some ((base_session script_stream clean_script
            [four_bytes, four_bytes, four_bytes]).1, t) ∧
      s.checksum = t.checksum ∧
      ∀ op : Retrieval, ∃ d s1 t1,
        retrieve .gnutls op s = some (d, s1) ∧ retrieve .gnutls op t = some (d, t1) :=
  ⟨by decide, (failed_reads_do_not_count .gnutls).2 script_stream script_stream flaky_script
    clean_script [four_bytes, four_bytes, four_bytes, four_bytes]
    [four_bytes, four_bytes, four_bytes] (by decide)⟩

/-! ## The digest of a stream read to its end -/

/-- C1: for every byte sequence and every way of splitting it into non-empty
chunks `cs` that the base stream hands out before end-of-stream, a stream made by
`ot_checksum_instream_new` and read until a call returns 0 (with any positive
`count`; enough calls are allowed) does reach end-of-stream, and its first
`ot_checksum_instream_get_digest` writes the SHA-256 digest of the whole
sequence, which is what the backend gives when it is initialised and fed the
whole sequence in one update call; the chunking does not enter the result. -/
theorem digest_of_chunked_read (v : CryptoBackend) (cs : List (List Byte)) (count fuel : Nat)
    (buffer buf : List Byte) (n : Nat) (hc : 0 < count) (hne : ∀ c ∈ cs, c ≠ [])
    (hf : cs.flatten.length + cs.length < fuel) (hn : 32 ≤ n) :
    ∃ s0 r s s1,
      ot_checksum_instream_new v (.input_stream (cs.map ScriptStep.chunk)) .G_CHECKSUM_SHA256
        = .stream s0 ∧
      read_to_end v script_stream count fuel s0 buffer = some (r, s) ∧ r.res = 0 ∧
      hash_directly v cs.flatten = some (sha256 cs.flatten) ∧
      ot_checksum_instream_get_digest v s buf (some n)
        = some (write_buf buf (sha256 cs.flatten), some 32, s1) := by
  obtain ⟨r, hr, h0, _⟩ := read_to_end_script v count hc fuel cs [] buffer hne hf
  refine ⟨{ base_stream := cs.map ScriptStep.chunk, checksum := { data := [], closed := false } },
    r, { base_stream := [], checksum := { data := [] ++ cs.flatten, closed := false } },
    { base_stream := [],
      checksum := digest_close v { data := [] ++ cs.flatten, closed := false } },
    ?_, hr, h0, hash_directly_eq v cs.flatten, ?_⟩
  · cases v <;> rfl
  · have h := get_digest_eq v
      ({ base_stream := [], checksum := { data := [] ++ cs.flatten, closed := false } } :
        OtChecksumInstream (List ScriptStep)) buf n (accepts_update_open v _ rfl) hn
    simpa using h

/-- Witness for C1: the bytes of "abc" handed out as "a" and "bc" under GLib. -/
theorem digest_of_chunked_read_witness :
    (0 < 4 ∧ (∀ c ∈ [[97], [98, 99]], c ≠ ([] : List Byte)) ∧
      ([[97], [98, 99]] : List (List Byte)).flatten.length
        + ([[97], [98, 99]] : List (List Byte)).length < 6 ∧ 32 ≤ 32) ∧
    ∃ s0 r s s1,
      ot_checksum_instream_new .glib
          (.input_stream (([[97], [98, 99]] : List (List Byte)).map ScriptStep.chunk))
          .G_CHECKSUM_SHA256
        = .stream s0 ∧
      read_to_end .glib script_stream 4 6 s0 [0, 0, 0, 0] = some (r, s) ∧ r.res = 0 ∧
      hash_directly .glib ([[97], [98, 99]] : List (List Byte)).flatten
        = some (sha256 ([[97], [98, 99]] : List (List Byte)).flatten) ∧
      ot_checksum_instream_get_digest .glib s (List.replicate 32 0) (some 32)
        = some (write_buf (List.replicate 32 0)
            (sha256 ([[97], [98, 99]] : List (List Byte)).flatten), some 32, s1) :=
  ⟨⟨by decide, by decide, by decide, by decide⟩,
    digest_of_chunked_read .glib [[97], [98, 99]] 4 6 [0, 0, 0, 0] (List.replicate 32 0) 32
      (by decide) (by decide) (by decide) (by decide)⟩

/-! ## The empty stream -/

/-- C10: for a stream made by `ot_checksum_instream_new` with SHA-256 over any base
stream, after any sequence of read calls that all return 0 (the empty sequence
of calls included), `ot_checksum_instream_get_string` returns the SHA-256 digest
of the empty input,
`e3b0c44298fc1c149afbf4c8996fb92427ae41e4649b934ca495991b7852b855`, under each
backend. -/
theorem get_string_of_empty_stream {β : Type} (v : CryptoBackend) (S : GInputStream β) (b : β)
    (qs : List ReadRequest) (h : ∀ r ∈ (base_session S b qs).1, r.res = 0) :
    ∃ s0 s s1,
      ot_checksum_instream_new v (.input_stream b) .G_CHECKSUM_SHA256 = .stream s0 ∧
      read_session v S s0 qs = some ((base_session S b qs).1, s) ∧
      ot_checksum_instream_get_string v s
        = some ("e3b0c44298fc1c149afbf4c8996fb92427ae41e4649b934ca495991b7852b855", s1) := by
  have hs := read_session_open v S qs b []
  rw [successful_chunks_of_zero _ h] at hs
  refine ⟨{ base_stream := b, checksum := { data := [], closed := false } },
    { base_stream := (base_session S b qs).2, checksum := { data := [], closed := false } },
    { base_stream := (base_session S b qs).2,
      checksum := digest_close v { data := [], closed := false } }, ?_, ?_, ?_⟩
  · cases v <;> rfl
  · simpa using hs
  · have hg := get_string_eq v
      ({ base_stream := (base_session S b qs).2, checksum := { data := [], closed := false } } :
        OtChecksumInstream β) (accepts_update_open v _ rfl)
    rw [hg]
    simp only [sha256_empty_hex]

/-- Witness for C10: two reads at the end of an empty scripted stream, under
OpenSSL. -/
theorem get_string_of_empty_stream_witness :
    (∀ r ∈ (base_session script_stream [] [four_bytes, four_bytes]).1, r.res = 0) ∧
    ∃ s0 s s1,
      ot_checksum_instream_new .openssl (.input_stream ([] : List ScriptStep)) .G_CHECKSUM_SHA256
        = .stream s0 ∧
      read_session .openssl script_stream s0 [four_bytes, four_bytes]
        = some ((base_session script_stream [] [four_bytes, four_bytes]).1, s) ∧
      ot_checksum_instream_get_string .openssl s
        = some ("e3b0c44298fc1c149afbf4c8996fb92427ae41e4649b934ca495991b7852b855", s1) :=
  ⟨by decide, get_string_of_empty_stream .openssl script_stream [] [four_bytes, four_bytes]
    (by decide)⟩

/-! ## The digest accessors -/

/-- C7: in every stream state and under each backend,
`ot_checksum_instream_get_string` returns the lowercase hexadecimal encoding of
the first `ret_len` bytes of the buffer that `ot_checksum_instream_dup_digest`
returns on the same state, and leaves the stream as that call does (neither has
a result on an OpenSSL context that is already finalised; otherwise both have);
the string is the 32 digest bytes written as two characters of `0-9a-f` each,
high nibble first, nothing before or between them, so 64 characters long. -/
theorem get_string_is_hex_of_dup_digest {β : Type} (v : CryptoBackend)
    (s : OtChecksumInstream β) :
    ot_checksum_instream_get_string v s
      = (ot_checksum_instream_dup_digest v s (some 0)).map
          (fun o => (ot_bin2hex o.1 (o.2.1.getD 0), o.2.2)) ∧
    (accepts_update v s.checksum = true →
      ∃ str s1, ot_checksum_instream_get_string v s = some (str, s1)) ∧
    ∀ str s1, ot_checksum_instream_get_string v s = some (str, s1) →
      str.data = (sha256 s.checksum.data).flatMap
          (fun b => [hexchars.getD (b % 256 / 16) '0', hexchars.getD (b % 16) '0']) ∧
      (sha256 s.checksum.data).length = 32 ∧
      str.length = 64 ∧
      ∀ c ∈ str.data, c ∈ hexchars := by
  by_cases h : accepts_update v s.checksum = true
  · refine ⟨?_, fun _ => ⟨_, _, get_string_eq v s h⟩, ?_⟩
    · rw [get_string_eq v s h, dup_digest_eq v s (some 0) h]
      simp [ot_bin2hex, take_write_buf]
    · intro str s1 hs
      rw [get_string_eq v s h] at hs
      simp only [Option.some.injEq, Prod.mk.injEq] at hs
      obtain ⟨hstr, _⟩ := hs
      subst hstr
      refine ⟨rfl, sha256_length _, ?_, flatMap_hex_byte_mem _⟩
      show ((sha256 s.checksum.data).flatMap hex_byte).length = 64
      rw [flatMap_hex_byte_length, sha256_length]
  · obtain ⟨hv, hc⟩ := closed_of_not_accepts v s.checksum h
    subst hv
    obtain ⟨_, hd, hg⟩ := retrievals_closed_openssl s hc [] none (some 0)
    refine ⟨by rw [hg, hd]; rfl, fun h1 => absurd h1 h, ?_⟩
    intro str s1 hs
    rw [hg] at hs
    cases hs

/-- Witness for C7: the string of a fresh GnuTLS stream. -/
theorem get_string_is_hex_of_dup_digest_witness :
    ∃ str s1, ot_checksum_instream_get_string .gnutls
        ({ base_stream := (), checksum := digest_init .gnutls } : OtChecksumInstream Unit)
      = some (str, s1) :=
  (get_string_is_hex_of_dup_digest .gnutls
    ({ base_stream := (), checksum := digest_init .gnutls } : OtChecksumInstream Unit)).2.1 rfl

/-- Counterexample to C9 as stated: under OpenSSL the buffer that
`ot_checksum_instream_dup_digest` returns for a fresh stream is
`EVP_MAX_MD_SIZE` = 64 bytes long, twice the 32 bytes it reports in `ret_len`. -/
theorem dup_digest_openssl_returns_64_bytes :
    (ot_checksum_instream_dup_digest .openssl
        ({ base_stream := (), checksum := digest_init .openssl } : OtChecksumInstream Unit)
        (some 0)).map (fun o => (o.1.length, o.2.1, o.1.take 32, o.1.drop 32))
      = some (64, some 32, digest_of_empty, List.replicate 32 0) := by
  decide

/-- C9, amended: in every stream state and under each backend,
`ot_checksum_instream_dup_digest` finalises as `ot_checksum_instream_get_digest`
does when called with `digest_len` at least 32: the same 32 digest bytes at the
start of the buffer and the same stream afterwards (both without a result on an
OpenSSL context already finalised, both with one otherwise); `ret_len`, when
supplied, is set to 32; and the buffer returned is exactly 32 bytes long under
GnuTLS and GLib, but `EVP_MAX_MD_SIZE` = 64 bytes under OpenSSL, the digest
followed by zero bytes. -/
theorem dup_digest_matches_get_digest {β : Type} (v : CryptoBackend)
    (s : OtChecksumInstream β) (buffer : List Byte) (n : Nat) (ret_len : Option Nat)
    (hn : 32 ≤ n) :
    (ot_checksum_instream_dup_digest v s ret_len).map (fun o => (o.1.take 32, o.2.2))
      = (ot_checksum_instream_get_digest v s buffer (some n)).map
          (fun o => (o.1.take 32, o.2.2)) ∧
    (accepts_update v s.checksum = true →
      ∃ ret s1,
        ot_checksum_instream_dup_digest v s ret_len
          = some (ret, ret_len.map (fun _ => 32), s1) ∧
        ot_checksum_instream_get_digest v s buffer (some n)
          = some (write_buf buffer (ret.take 32), some 32, s1) ∧
        ret.take 32 = sha256 s.checksum.data ∧
        (ret.take 32).length = 32 ∧
        ret.length = (if v = .openssl then 64 else 32) ∧
        ret.drop 32 = List.replicate (ret.length - 32) 0) := by
  by_cases h : accepts_update v s.checksum = true
  · have hd := dup_digest_eq v s ret_len h
    have hg := get_digest_eq v s buffer n h hn
    have hdrop : List.drop 32 (write_buf (List.replicate (dup_digest_alloc v) 0)
        (sha256 s.checksum.data)) = List.replicate (dup_digest_alloc v - 32) 0 := by
      unfold write_buf
      rw [List.drop_append_of_le_length (by rw [sha256_length]),
        List.drop_of_length_le (by rw [sha256_length]), List.nil_append, sha256_length,
        List.drop_replicate]
    have hlen : (write_buf (List.replicate (dup_digest_alloc v) 0)
        (sha256 s.checksum.data)).length = dup_digest_alloc v := by
      have ha : 32 ≤ dup_digest_alloc v := by cases v <;> decide
      unfold write_buf
      rw [List.length_append, List.length_drop, List.length_replicate, sha256_length]
      omega
    refine ⟨?_, fun _ => ⟨_, _, hd, ?_, take_write_buf _ _, ?_, ?_, ?_⟩⟩
    · rw [hd, hg]
      simp [take_write_buf]
    · rw [hg, take_write_buf]
    · rw [take_write_buf, sha256_length]
    · rw [hlen]
      cases v <;> rfl
    · rw [hdrop, hlen]
  · obtain ⟨hv, hc⟩ := closed_of_not_accepts v s.checksum h
    subst hv
    obtain ⟨hg, hd, _⟩ := retrievals_closed_openssl s hc buffer (some n) ret_len
    exact ⟨by rw [hg, hd], fun h1 => absurd h1 h⟩

/-- Witness for C9: a fresh GLib stream, a 32-byte buffer and `digest_len` 32. -/
theorem dup_digest_matches_get_digest_witness :
    32 ≤ 32 ∧
    (ot_checksum_instream_dup_digest .glib
        ({ base_stream := (), checksum := digest_init .glib } : OtChecksumInstream Unit)
        (some 0)).map (fun o => (o.1.take 32, o.2.2))
      = (ot_checksum_instream_get_digest .glib
          ({ base_stream := (), checksum := digest_init .glib } : OtChecksumInstream Unit)
          (List.replicate 32 0) (some 32)).map (fun o => (o.1.take 32, o.2.2)) :=
  ⟨le_refl 32, (dup_digest_matches_get_digest .glib
    ({ base_stream := (), checksum := digest_init .glib } : OtChecksumInstream Unit)
    (List.replicate 32 0) 32 (some 0) (le_refl 32)).1⟩

/-! ## Retrieving the digest more than once, and reading afterwards -/

/-- Counterexample to C8 as stated: with a `base` that is `NULL`, or an object
that is not an input stream, and a checksum type other than SHA-256 the
constructor returns `NULL`; it does not reach the assertion on the checksum
type. -/
theorem new_invalid_base_other_type_returns_null :
    ot_checksum_instream_new .openssl (GObjectRef.null : GObjectRef Unit) .G_CHECKSUM_MD5
      = NewResult.null ∧
    ot_checksum_instream_new .gnutls (GObjectRef.not_a_stream : GObjectRef Unit)
        .G_CHECKSUM_SHA512
      = NewResult.null ∧
    (NewResult.null : NewResult Unit) ≠ NewResult.assertion_failed := by
  decide

/-- C8, amended: `ot_checksum_instream_new (base, checksum_type)` returns `NULL`
whenever `base` is not an input stream, whatever the checksum type; it ends in a
failed assertion whenever `base` is an input stream and the checksum type is not
SHA-256; and it returns a stream, over `base` and with a freshly initialised
digest context, exactly when `base` is an input stream and the checksum type is
SHA-256. -/
theorem ot_checksum_instream_new_outcome {β : Type} (v : CryptoBackend) (base : GObjectRef β)
    (checksum_type : GChecksumType) :
    (G_IS_INPUT_STREAM base = false → ot_checksum_instream_new v base checksum_type = .null) ∧
    (G_IS_INPUT_STREAM base = true → checksum_type ≠ .G_CHECKSUM_SHA256 →
      ot_checksum_instream_new v base checksum_type = .assertion_failed) ∧
    (∀ b, base = .input_stream b → checksum_type = .G_CHECKSUM_SHA256 →
      ot_checksum_instream_new v base checksum_type
        = .stream { base_stream := b, checksum := digest_init v } ∧
      digest_init v = { data := [], closed := false }) ∧
    ((∃ s, ot_checksum_instream_new v base checksum_type = .stream s) ↔
      (G_IS_INPUT_STREAM base = true ∧ checksum_type = .G_CHECKSUM_SHA256)) := by
  refine ⟨?_, ?_, ?_, ?_⟩
  · intro hb
    cases base with
    | input_stream b => simp [G_IS_INPUT_STREAM] at hb
    | null => rfl
    | not_a_stream => rfl
  · intro hb ht
    cases base with
    | input_stream b => simp [ot_checksum_instream_new, ht]
    | null => simp [G_IS_INPUT_STREAM] at hb
    | not_a_stream => simp [G_IS_INPUT_STREAM] at hb
  · intro b hb ht
    subst hb
    subst ht
    constructor
    · cases v <;> rfl
    · cases v <;> rfl
  · constructor
    · rintro ⟨s, hs⟩
      cases base with
      | input_stream b =>
        refine ⟨rfl, ?_⟩
        by_contra ht
        simp [ot_checksum_instream_new, ht] at hs
      | null => simp [ot_checksum_instream_new] at hs
      | not_a_stream => simp [ot_checksum_instream_new] at hs
    · rintro ⟨hb, ht⟩
      cases base with
      | input_stream b =>
        subst ht
        exact ⟨{ base_stream := b, checksum := { data := [], closed := false } }, by
          cases v <;> rfl⟩
      | null => simp [G_IS_INPUT_STREAM] at hb
      | not_a_stream => simp [G_IS_INPUT_STREAM] at hb

/-- Witness for C8: the three outcomes of the constructor under GLib. -/
theorem ot_checksum_instream_new_outcome_witness :
    ot_checksum_instream_new .glib (GObjectRef.not_a_stream : GObjectRef Unit)
        .G_CHECKSUM_SHA256 = .null ∧
    ot_checksum_instream_new .glib (GObjectRef.input_stream ()) .G_CHECKSUM_SHA1
      = .assertion_failed :=
  ⟨(ot_checksum_instream_new_outcome .glib (GObjectRef.not_a_stream : GObjectRef Unit)
      .G_CHECKSUM_SHA256).1 rfl,
   (ot_checksum_instream_new_outcome .glib (GObjectRef.input_stream ()) .G_CHECKSUM_SHA1).2.1
      rfl (by decide)⟩
